import Mathlib

/-!
# texlate: the escaper, the prompt adapter and the driver's write path

A shallow embedding of `main.go`.

Go strings are modelled as Lean strings (lists of characters).  Every pattern
that `TexEscape` searches for is a one- or two-character ASCII text, so a
match at the character level is the same as a match at the byte level.
-/

namespace Texlate

/-! ## `strings.ReplaceAll` -/

/-- The scanning loop of `strings.Replace` for a non-empty `old`: walk the
text left to right; where `old` starts, emit `new` and step over the matched
characters (`skip` counts the characters of the match still to step over),
elsewhere copy the character. -/
def replaceGo (old new : List Char) : Nat → List Char → List Char
  | _, [] => []
  | skip + 1, _ :: cs => replaceGo old new skip cs
  | 0, c :: cs =>
    if old.isPrefixOf (c :: cs) then new ++ replaceGo old new (old.length - 1) cs
    else c :: replaceGo old new 0 cs

/-- The Go library function `strings.ReplaceAll(s, old, new)` on character
lists: every non-overlapping instance of `old`, found left to right, is
replaced by `new`.  An empty `old` matches before every character and at the
end of the text. -/
def replaceAllChars (s old new : List Char) : List Char :=
  if old = new then s
  else if old = [] then new ++ s.flatMap (fun c => c :: new)
  else replaceGo old new 0 s

/-- The Go library function `strings.ReplaceAll` on strings. -/
def replaceAll (s old new : String) : String :=
  ⟨replaceAllChars s.data old.data new.data⟩

/-! ## The escaper -/

/-- The function `TexEscape` of `main.go`: thirteen global replacements, each
applied to the result of the one before.  The opening and the closing brace
of rules 6 and 7 are written `\x7b` and `\x7d`. -/
def TexEscape (input : String) : String :=
  let input := replaceAll input "&" "\\&"
  let input := replaceAll input "%" "\\%"
  let input := replaceAll input "$" "\\$"
  let input := replaceAll input "#" "\\#"
  let input := replaceAll input "_" "\\_"
  let input := replaceAll input "\x7b" "\\\x7b"
  let input := replaceAll input "\x7d" "\\\x7d"
  let input := replaceAll input "~ " "\\textasciitilde\\space "
  let input := replaceAll input "~" "\\textasciitilde "
  let input := replaceAll input "^ " "\\textasciicircum\\space "
  let input := replaceAll input "^" "\\textasciicircum "
  let input := replaceAll input "\\ " "\\textbackslash\\space "
  let input := replaceAll input "\\" "\\textbackslash "
  input

/-- The thirteen replacements of `TexEscape` as a table, in source order. -/
def texRules : List (String × String) :=
  [("&", "\\&"), ("%", "\\%"), ("$", "\\$"), ("#", "\\#"), ("_", "\\_"),
   ("\x7b", "\\\x7b"), ("\x7d", "\\\x7d"),
   ("~ ", "\\textasciitilde\\space "), ("~", "\\textasciitilde "),
   ("^ ", "\\textasciicircum\\space "), ("^", "\\textasciicircum "),
   ("\\ ", "\\textbackslash\\space "), ("\\", "\\textbackslash ")]

/-- Apply a table of replacements from first to last. -/
def applyRules (rules : List (String × String)) (input : String) : String :=
  rules.foldl (fun acc r => replaceAll acc r.1 r.2) input

/-- The ten characters that some rule of `TexEscape` looks for. -/
def specialChars : List Char :=
  ['&', '%', '$', '#', '_', '\x7b', '\x7d', '~', '^', '\\']

/-- The seven characters that rules 1 to 7 put a backslash in front of. -/
def escapedChars : List Char := ['&', '%', '$', '#', '_', '\x7b', '\x7d']

/-- Whether a text holds an unescaped occurrence of one of `escapedChars`: an
occurrence that is not immediately preceded by a backslash.  `prev` is the
character before the text, if any. -/
def hasUnescaped : Option Char → List Char → Bool
  | _, [] => false
  | prev, c :: cs =>
    (decide (c ∈ escapedChars) && !(prev == some '\\')) || hasUnescaped (some c) cs

/-- The text that the specification promises for an input free of backslash,
tilde and circumflex: each of `escapedChars` preceded by a single backslash. -/
def backslashEscaped (s : String) : String :=
  ⟨s.data.flatMap (fun c => if c ∈ escapedChars then ['\\', c] else [c])⟩

/-- Whether every backslash of a text is immediately followed by the text
`textbackslash ` (with its trailing space). -/
def backslashesNamed : List Char → Bool
  | [] => true
  | c :: cs => (c != '\\' || "textbackslash ".data.isPrefixOf cs) && backslashesNamed cs

/-! ## The answer store -/

/-- A Go `map[string]string`, as an association list read by its first
matching key. -/
abbrev GoMap := List (String × String)

/-- The two-valued Go map read `v, ok := m[k]`. -/
def mapFind (m : GoMap) (k : String) : Option String := m.lookup k

/-- The Go map read `m[k]`: the stored value, or the zero value `""` when the
key is absent. -/
def mapGet (m : GoMap) (k : String) : String :=
  match mapFind m k with
  | some v => v
  | none => ""

/-- The Go map write `m[k] = v`. -/
def mapSet (m : GoMap) (k v : String) : GoMap :=
  (k, v) :: m.filter (fun p => p.1 != k)

/-- The struct `wizard`. -/
structure wizard where
  OutputFilename : String
  Values : GoMap
  deriving DecidableEq, Repr

/-! ## `strconv` -/

/-- The Go library function `strconv.ParseBool`: the value and, for a text it
does not accept, an error. -/
def ParseBool (str : String) : Bool × Option String :=
  if str = "1" ∨ str = "t" ∨ str = "T" ∨ str = "true" ∨ str = "TRUE" ∨ str = "True" then
    (true, none)
  else if str = "0" ∨ str = "f" ∨ str = "F" ∨ str = "false" ∨ str = "FALSE"
      ∨ str = "False" then
    (false, none)
  else (false, some ("strconv.ParseBool: parsing " ++ str ++ ": invalid syntax"))

/-- The Go library function `strconv.FormatBool`. -/
def FormatBool (b : Bool) : String := if b then "true" else "false"

/-! ## The prompt adapter -/

/-- The prompt `survey.Confirm`. -/
structure Confirm where
  Message : String
  Default : Bool
  deriving DecidableEq, Repr

/-- The prompt `survey.Input`. -/
structure Input where
  Message : String
  Default : String
  deriving DecidableEq, Repr

/-- The prompt `survey.Select`. -/
structure Select where
  Message : String
  Options : List String
  Default : String
  deriving DecidableEq, Repr

/-- The user behind `survey.AskOne`: for each prompt shown, either the reply
or the error of the interaction. -/
structure Terminal where
  askConfirm : Confirm → Except String Bool
  askInput : Input → Except String String
  askSelect : Select → Except String String

/-- The method `SetOutputFilename`: the returned text and the wizard after. -/
def SetOutputFilename (w : wizard) (filename : String) : String × wizard :=
  ("", { w with OutputFilename := filename })

/-- The prompt that `PromptBool` builds before it asks (lines 133 to 137). -/
def PromptBool.shown (w : wizard) (mapKey question : String) : Confirm :=
  let yesno := (ParseBool (mapGet w.Values mapKey)).1
  { Message := question, Default := yesno }

/-- The method `PromptBool`: the returned value and the wizard after, or the
error it panics with. -/
def PromptBool (w : wizard) (mapKey question : String) (t : Terminal) :
    Except String (Bool × wizard) :=
  match t.askConfirm (PromptBool.shown w mapKey question) with
  | .error err => .error err
  | .ok yesno =>
    .ok (yesno, { w with Values := mapSet w.Values mapKey (FormatBool yesno) })

/-- The prompt that `PromptString` builds before it asks (lines 151 to 155). -/
def PromptString.shown (w : wizard) (mapKey question : String) : Input :=
  let answer := mapGet w.Values mapKey
  { Message := question, Default := answer }

/-- The method `PromptString`. -/
def PromptString (w : wizard) (mapKey question : String) (t : Terminal) :
    Except String (String × wizard) :=
  match t.askInput (PromptString.shown w mapKey question) with
  | .error err => .error err
  | .ok answer =>
    .ok (TexEscape answer, { w with Values := mapSet w.Values mapKey answer })

/-- The prompt that `PromptSelect` builds before it asks (lines 168 to 173). -/
def PromptSelect.shown (w : wizard) (mapKey question : String) (options : List String) :
    Select :=
  let answer := mapGet w.Values mapKey
  { Message := question, Options := options, Default := answer }

/-- The method `PromptSelect`. -/
def PromptSelect (w : wizard) (mapKey question : String) (options : List String)
    (t : Terminal) : Except String (String × wizard) :=
  match t.askSelect (PromptSelect.shown w mapKey question options) with
  | .error err => .error err
  | .ok answer =>
    .ok (TexEscape answer, { w with Values := mapSet w.Values mapKey answer })

/-! ## The driver and its write path -/

/-- The two commands of the command line. -/
inductive Command where
  | create (templateFile : String)
  | update (valuesFile : String)
  deriving DecidableEq, Repr

/-- What a run does to the outside, in order. -/
inductive Effect where
  | log (msg : String)
  | stdout (text : String)
  | mkdirAll (dir : String)
  | openFile (path : String)
  | copyToFile (path : String) (text : String)
  | writeFile (path : String) (bytes : String)
  | run (dir : String) (args : List String) (texinputs : String)
  | exit (code : Nat)
  deriving DecidableEq, Repr

/-- The collaborators of `main` that are not part of the repository: the file
system, the template engine, the JSON codec and the path functions.  An
`Option String` is the error of a call, `none` when it succeeds. -/
structure World where
  /-- The call `ioutil.ReadFile`: the bytes read (its error is dropped). -/
  readFile : String → String
  /-- The call `json.Unmarshal(data, &w.Values)`: the map afterwards (its
  error is dropped). -/
  unmarshal : String → GoMap → GoMap
  /-- The error of parsing the template file. -/
  parseFiles : String → Option String
  /-- The call `tmpl.Execute(&output, &w)`: the text written to the buffer,
  the wizard afterwards and the error. -/
  execute : wizard → String × wizard × Option String
  /-- The error of `io.Copy(os.Stdout, &output)`. -/
  copyStdout : String → Option String
  /-- The call `filepath.Abs`. -/
  abs : String → String
  /-- The call `path.Join(".", filepath.Dir(name))`. -/
  joinDotDir : String → String
  /-- Whether `os.Stat` reports that the path does not exist. -/
  notExist : String → Bool
  /-- The error of `os.OpenFile`. -/
  openFile : String → Option String
  /-- The error of `io.Copy(outputFile, &output)`. -/
  copyFile : String → String → Option String
  /-- The call `json.Marshal(w.Values)`. -/
  marshal : GoMap → String × Option String
  /-- The error of `ioutil.WriteFile`. -/
  writeFile : String → String → Option String
  /-- The error of `filepath.Abs(*templateFile)`. -/
  absTemplate : String → Option String
  /-- The call `filepath.Dir`. -/
  dir : String → String

/-- Log an error when there is one. -/
def logIf : Option String → List Effect
  | some err => [Effect.log err]
  | none => []

/-- The branch of `main` that writes the paired files and runs the renderer
twice (lines 76 to 119). -/
def writeFiles (env : World) (w : wizard) (templateFile output : String) : List Effect :=
  let outputDir := env.abs (env.joinDotDir w.OutputFilename)
  let mk := if env.notExist outputDir then [Effect.mkdirAll outputDir] else []
  let texFileAbsolutePath := env.abs (w.OutputFilename ++ ".tex")
  let valuesFileAbsolutePath := env.abs (w.OutputFilename ++ ".json")
  mk ++ Effect.openFile texFileAbsolutePath ::
  match env.openFile texFileAbsolutePath with
  | some err => [Effect.log err, Effect.exit 1]
  | none =>
    Effect.copyToFile texFileAbsolutePath output ::
    match env.copyFile texFileAbsolutePath output with
    | some err => [Effect.log err, Effect.exit 1]
    | none =>
      let valueBytes := env.marshal w.Values
      logIf valueBytes.2 ++
      Effect.writeFile valuesFileAbsolutePath valueBytes.1 ::
      match env.writeFile valuesFileAbsolutePath valueBytes.1 with
      | some err => [Effect.log err, Effect.exit 1]
      | none =>
        match env.absTemplate templateFile with
        | some err => [Effect.log err, Effect.exit 1]
        | none =>
          let templateDir := env.dir (env.abs templateFile)
          let cmd := Effect.run outputDir ["pdflatex", "-halt-on-error", texFileAbsolutePath]
            ("TEXINPUTS=$TEXMFDOTDIR:$TEXMF/tex/\x7b$progname,generic,latex,\x7d//:"
              ++ templateDir)
          [cmd, cmd]

/-- The function `main` after the command line is parsed: everything the run
does to the outside. -/
def main (env : World) (cmd : Command) : List Effect :=
  let w : wizard := { OutputFilename := "", Values := [] }
  let start : wizard × String :=
    match cmd with
    | .create templateFile =>
      ({ w with Values := mapSet w.Values "_template" templateFile }, templateFile)
    | .update valuesFile =>
      let data := env.readFile valuesFile
      let values := env.unmarshal data w.Values
      ({ w with Values := values }, mapGet values "_template")
  let w := start.1
  let templateFile := start.2
  match env.parseFiles templateFile with
  | some err => [Effect.log err, Effect.exit 1]
  | none =>
    let result := env.execute w
    let output := result.1
    let w := result.2.1
    logIf result.2.2 ++
    if w.OutputFilename = "" then
      Effect.stdout output ::
      match env.copyStdout output with
      | some _ => [Effect.exit 1]
      | none => []
    else writeFiles env w templateFile output

/-! ## Sample runs -/

/-- A user who answers every yes/no question with `yes` and every text or
select question with `text`. -/
def scripted (yes : Bool) (text : String) : Terminal :=
  { askConfirm := fun _ => .ok yes
    askInput := fun _ => .ok text
    askSelect := fun _ => .ok text }

/-- The store that the first run of the scenario persists. -/
def firstRunStore : wizard :=
  { OutputFilename := ""
    Values := [("draft", "false"), ("title", "A & B"), ("_template", "letter.tex")] }

/-- A run whose template writes `Hello ` to the buffer, after declaring the
output name `name` when that is not empty, and then fails, as the template
text `Hello ` followed by the directive `.Missing` does.  Every call to the
file system succeeds, and the bytes of the values file are stood for by the
entries written `key=value;`. -/
def failingRun (name : String) : World :=
  { readFile := fun _ => ""
    unmarshal := fun _ m => m
    parseFiles := fun _ => none
    execute := fun w =>
      ("Hello ", (SetOutputFilename w name).2, some "can't evaluate field Missing")
    copyStdout := fun _ => none
    abs := fun p => "/work/" ++ p
    joinDotDir := fun _ => "."
    notExist := fun _ => false
    openFile := fun _ => none
    copyFile := fun _ _ => none
    marshal := fun m => (String.join (m.map fun kv => kv.1 ++ "=" ++ kv.2 ++ ";"), none)
    writeFile := fun _ _ => none
    absTemplate := fun _ => none
    dir := fun _ => "/work" }

/-! ## Lemmas on `strings.ReplaceAll` -/

theorem replaceGo_of_not_mem (a : Char) (o new l : List Char) (h : a ∉ l) :
    replaceGo (a :: o) new 0 l = l := by
  induction l with
  | nil => rfl
  | cons c cs ih =>
    have hc : (a == c) = false := by
      simp only [beq_eq_false_iff_ne, ne_eq]
      intro e
      exact h (e ▸ List.mem_cons_self _ _)
    have hcs : a ∉ cs := fun hm => h (List.mem_cons_of_mem _ hm)
    simp [replaceGo, List.isPrefixOf, hc, ih hcs]

theorem replaceAllChars_of_not_mem (a : Char) (o new s : List Char) (h : a ∉ s) :
    replaceAllChars s (a :: o) new = s := by
  unfold replaceAllChars
  split
  · rfl
  · simp [replaceGo_of_not_mem a o new s h]

theorem replaceAll_of_not_mem (s old new : String) (a : Char)
    (ha : old.data.head? = some a) (h : a ∉ s.data) : replaceAll s old new = s := by
  obtain ⟨od⟩ := old
  cases od with
  | nil => simp at ha
  | cons b o =>
    simp only [List.head?_cons, Option.some.injEq] at ha
    subst ha
    simp [replaceAll, replaceAllChars_of_not_mem b o new.data s.data h]

theorem applyRules_of_safe (rules : List (String × String)) (s : String)
    (h : ∀ r ∈ rules, ∃ a, r.1.data.head? = some a ∧ a ∉ s.data) :
    applyRules rules s = s := by
  induction rules with
  | nil => rfl
  | cons r rs ih =>
    obtain ⟨a, ha, hs⟩ := h r (List.mem_cons_self _ _)
    have hstep : replaceAll s r.1 r.2 = s := replaceAll_of_not_mem s r.1 r.2 a ha hs
    have hrest : applyRules rs s = s := ih fun q hq => h q (List.mem_cons_of_mem _ hq)
    simpa [applyRules, hstep] using hrest

theorem texRules_head :
    ∀ r ∈ texRules, ∃ a ∈ specialChars, r.1.data.head? = some a := by
  decide

theorem replaceGo_single (a : Char) (new l : List Char) :
    replaceGo [a] new 0 l = l.flatMap (fun c => if c = a then new else [c]) := by
  induction l with
  | nil => rfl
  | cons c cs ih =>
    by_cases hc : c = a
    · subst hc
      simp [replaceGo, List.isPrefixOf, ih]
    · have hne : (a == c) = false := by
        simp only [beq_eq_false_iff_ne, ne_eq]
        exact fun e => hc e.symm
      simp [replaceGo, List.isPrefixOf, hne, hc, ih]

theorem mem_replaceGo (old new : List Char) (x : Char) :
    ∀ (l : List Char) (skip : Nat), x ∈ l.drop skip →
      x ∈ replaceGo old new skip l ∨ ∀ y ∈ new, y ∈ replaceGo old new skip l := by
  intro l
  induction l with
  | nil => intro skip h; simp at h
  | cons c cs ih =>
    intro skip h
    cases skip with
    | succ k =>
      simp only [List.drop_succ_cons] at h
      simpa [replaceGo] using ih k h
    | zero =>
      simp only [List.drop_zero, List.mem_cons] at h
      by_cases hp : old.isPrefixOf (c :: cs) = true
      · right
        intro y hy
        simp [replaceGo, hp, hy]
      · simp only [replaceGo, hp, Bool.false_eq_true, if_false, List.mem_cons]
        rcases h with h | h
        · exact Or.inl (Or.inl h)
        · rcases ih 0 (by simpa using h) with h1 | h1
          · exact Or.inl (Or.inr h1)
          · exact Or.inr fun y hy => Or.inr (h1 y hy)

theorem mem_replaceAllChars (s old new : List Char) (x : Char) (h : x ∈ s) :
    x ∈ replaceAllChars s old new ∨ ∀ y ∈ new, y ∈ replaceAllChars s old new := by
  unfold replaceAllChars
  split
  · exact Or.inl h
  · split
    · left
      simp only [List.mem_append, List.mem_flatMap, List.mem_cons]
      exact Or.inr ⟨x, h, Or.inl rfl⟩
    · exact mem_replaceGo old new x s 0 (by simpa using h)

theorem length_replaceGo (old new : List Char) (h1 : 1 ≤ old.length)
    (h2 : old.length ≤ new.length) :
    ∀ (l : List Char) (skip : Nat), l.length ≤ (replaceGo old new skip l).length + skip := by
  intro l
  induction l with
  | nil => intro skip; simp
  | cons c cs ih =>
    intro skip
    cases skip with
    | succ k =>
      have := ih k
      simp only [replaceGo, List.length_cons]
      omega
    | zero =>
      by_cases hp : old.isPrefixOf (c :: cs) = true
      · have := ih (old.length - 1)
        simp only [replaceGo, hp, if_true, List.length_append, List.length_cons]
        omega
      · have := ih 0
        simp only [replaceGo, hp, Bool.false_eq_true, if_false, List.length_cons]
        omega

theorem length_replaceAll (s old new : String) (h1 : 1 ≤ old.data.length)
    (h2 : old.data.length ≤ new.data.length) :
    s.data.length ≤ (replaceAll s old new).data.length := by
  have hne : old.data ≠ [] := by
    intro e
    rw [e] at h1
    simp at h1
  simp only [replaceAll, replaceAllChars]
  split
  · exact Nat.le_refl _
  · simpa using length_replaceGo old.data new.data h1 h2 s.data 0

theorem length_flatMap_lt (a : Char) (new : List Char) (h : 2 ≤ new.length) :
    ∀ l : List Char, a ∈ l →
      l.length < (l.flatMap (fun c => if c = a then new else [c])).length := by
  intro l
  induction l with
  | nil => intro hm; simp at hm
  | cons c cs ih =>
    intro hm
    have hle : cs.length ≤ (cs.flatMap (fun c => if c = a then new else [c])).length := by
      have := length_replaceGo [a] new (by simp) (by simp; omega) cs 0
      rw [replaceGo_single] at this
      simpa using this
    by_cases hc : c = a
    · simp only [List.flatMap_cons, hc, if_true, List.length_append, List.length_cons]
      omega
    · have hcs : a ∈ cs := by
        rcases List.mem_cons.mp hm with e | e
        · exact absurd e.symm hc
        · exact e
      have := ih hcs
      simp only [List.flatMap_cons, hc, if_false, List.length_append, List.length_cons,
        List.length_nil]
      omega

/-! ## Lemmas on the answer store -/

theorem mapFind_mapSet_self (m : GoMap) (k v : String) : mapFind (mapSet m k v) k = some v := by
  simp [mapFind, mapSet, List.lookup]

theorem mapFind_mapSet_other (m : GoMap) (k v j : String) (h : j ≠ k) :
    mapFind (mapSet m k v) j = mapFind m j := by
  have hjk : (j == k) = false := by simpa using h
  simp only [mapFind, mapSet, List.lookup, hjk]
  induction m with
  | nil => rfl
  | cons p ps ih =>
    obtain ⟨a, b⟩ := p
    by_cases ha : a = k
    · subst ha
      have hja : (j == a) = false := hjk
      simp [List.filter, List.lookup, hja, ih]
    · have hne : (a != k) = true := by simpa using ha
      by_cases hj : j = a
      · subst hj
        simp [List.filter, List.lookup, hne]
      · have hja : (j == a) = false := by simpa using hj
        simp [List.filter, List.lookup, hne, hja, ih]

theorem ParseBool_error_false (v : String) (h : (ParseBool v).2 ≠ none) :
    (ParseBool v).1 = false := by
  unfold ParseBool at h ⊢
  split
  · rename_i h1
    simp [h1] at h
  · split <;> rfl

theorem PromptBool_ok (w : wizard) (k q : String) (t : Terminal) (b : Bool)
    (h : t.askConfirm (PromptBool.shown w k q) = .ok b) :
    PromptBool w k q t = .ok (b, { w with Values := mapSet w.Values k (FormatBool b) }) := by
  simp only [PromptBool, h]

theorem PromptString_ok (w : wizard) (k q : String) (t : Terminal) (a : String)
    (h : t.askInput (PromptString.shown w k q) = .ok a) :
    PromptString w k q t = .ok (TexEscape a, { w with Values := mapSet w.Values k a }) := by
  simp only [PromptString, h]

theorem PromptSelect_ok (w : wizard) (k q : String) (options : List String) (t : Terminal)
    (a : String) (h : t.askSelect (PromptSelect.shown w k q options) = .ok a) :
    PromptSelect w k q options t =
      .ok (TexEscape a, { w with Values := mapSet w.Values k a }) := by
  simp only [PromptSelect, h]

/-! ## Lemmas on the rule table -/

theorem backslash_mem_replaceAll (s old new : String) (x : Char)
    (hnew : '\\' ∈ new.data) (h : x ∈ s.data ∨ '\\' ∈ s.data) :
    x ∈ (replaceAll s old new).data ∨ '\\' ∈ (replaceAll s old new).data := by
  rcases h with h | h
  · rcases mem_replaceAllChars s.data old.data new.data x h with h1 | h1
    · exact Or.inl h1
    · exact Or.inr (h1 _ hnew)
  · rcases mem_replaceAllChars s.data old.data new.data '\\' h with h1 | h1
    · exact Or.inr h1
    · exact Or.inr (h1 _ hnew)

theorem backslash_mem_replaceAll_single (s old new : String) (c : Char)
    (hold : old.data = [c]) (hne : old.data ≠ new.data) (hnew : '\\' ∈ new.data)
    (h : c ∈ s.data) : '\\' ∈ (replaceAll s old new).data := by
  have e : replaceAllChars s.data old.data new.data =
      s.data.flatMap (fun d => if d = c then new.data else [d]) := by
    unfold replaceAllChars
    rw [if_neg hne, hold, if_neg (List.cons_ne_nil _ _), replaceGo_single]
  show '\\' ∈ replaceAllChars s.data old.data new.data
  rw [e, List.mem_flatMap]
  exact ⟨c, h, by simpa using hnew⟩

theorem backslash_mem_applyRules (rules : List (String × String))
    (hnew : ∀ r ∈ rules, '\\' ∈ r.2.data) :
    ∀ s : String, '\\' ∈ s.data → '\\' ∈ (applyRules rules s).data := by
  induction rules with
  | nil => intro s h; exact h
  | cons r rs ih =>
    intro s h
    have hr := hnew r (List.mem_cons_self _ _)
    have hstep : '\\' ∈ (replaceAll s r.1 r.2).data := by
      rcases backslash_mem_replaceAll s r.1 r.2 '\\' hr (Or.inl h) with h1 | h1 <;> exact h1
    exact ih (fun q hq => hnew q (List.mem_cons_of_mem _ hq)) _ hstep

theorem backslash_of_special (rules : List (String × String)) (c : Char)
    (hnew : ∀ r ∈ rules, '\\' ∈ r.2.data) (hne : ∀ r ∈ rules, r.1.data ≠ r.2.data)
    (hrule : ∃ r ∈ rules, r.1.data = [c]) :
    ∀ s : String, c ∈ s.data ∨ '\\' ∈ s.data → '\\' ∈ (applyRules rules s).data := by
  induction rules with
  | nil =>
    obtain ⟨r, hr, _⟩ := hrule
    simp at hr
  | cons r rs ih =>
    intro s h
    have hr := hnew r (List.mem_cons_self _ _)
    have hrs : ∀ q ∈ rs, '\\' ∈ q.2.data := fun q hq => hnew q (List.mem_cons_of_mem _ hq)
    have hnext := backslash_mem_replaceAll s r.1 r.2 c hr h
    by_cases hc : r.1.data = [c]
    · have hstep : '\\' ∈ (replaceAll s r.1 r.2).data := by
        rcases h with h | h
        · exact backslash_mem_replaceAll_single s r.1 r.2 c hc
            (hne r (List.mem_cons_self _ _)) hr h
        · rcases backslash_mem_replaceAll s r.1 r.2 '\\' hr (Or.inl h) with h1 | h1 <;>
            exact h1
      exact backslash_mem_applyRules rs hrs _ hstep
    · obtain ⟨q, hq, hqc⟩ := hrule
      have hq2 : q ∈ rs := by
        rcases List.mem_cons.mp hq with e | e
        · exact absurd (e ▸ hqc) hc
        · exact e
      exact ih hrs (fun q hq => hne q (List.mem_cons_of_mem _ hq)) ⟨q, hq2, hqc⟩ _ hnext

theorem length_applyRules (rules : List (String × String))
    (h : ∀ r ∈ rules, 1 ≤ r.1.data.length ∧ r.1.data.length ≤ r.2.data.length) :
    ∀ s : String, s.data.length ≤ (applyRules rules s).data.length := by
  induction rules with
  | nil => intro s; exact Nat.le_refl _
  | cons r rs ih =>
    intro s
    have hr := h r (List.mem_cons_self _ _)
    exact Nat.le_trans (length_replaceAll s r.1 r.2 hr.1 hr.2)
      (ih (fun q hq => h q (List.mem_cons_of_mem _ hq)) _)

theorem TexEscape_last (s : String) :
    (TexEscape s).data = (applyRules texRules.dropLast s).data.flatMap
      (fun c => if c = '\\' then "\\textbackslash ".data else [c]) := by
  have h : TexEscape s =
      replaceAll (applyRules texRules.dropLast s) "\\" "\\textbackslash " := rfl
  rw [h]
  simp only [replaceAll, replaceAllChars]
  rw [if_neg (by decide), if_neg (by decide)]
  exact replaceGo_single '\\' _ _

theorem backslash_mem_TexEscape (s : String) (c : Char) (hc : c ∈ specialChars)
    (hs : c ∈ s.data) : '\\' ∈ (TexEscape s).data := by
  have hrule : ∀ c ∈ specialChars, ∃ r ∈ texRules, r.1.data = [c] := by decide
  exact backslash_of_special texRules c (by decide) (by decide) (hrule c hc) s (Or.inl hs)

theorem length_lt_TexEscape (t : String) (h : '\\' ∈ t.data) :
    t.data.length < (TexEscape t).data.length := by
  have h1 : '\\' ∈ (applyRules texRules.dropLast t).data :=
    backslash_mem_applyRules texRules.dropLast (by decide) t h
  have h2 : t.data.length ≤ (applyRules texRules.dropLast t).data.length :=
    length_applyRules texRules.dropLast (by decide) t
  have h3 := length_flatMap_lt '\\' "\\textbackslash ".data (by decide) _ h1
  rw [TexEscape_last]
  omega

theorem backslashesNamed_append (rest : List Char) :
    backslashesNamed ("\\textbackslash ".data ++ rest) = backslashesNamed rest := by
  have e : "\\textbackslash ".data ++ rest = '\\' :: ("textbackslash ".data ++ rest) := rfl
  rw [e]
  have hp : "textbackslash ".data.isPrefixOf ("textbackslash ".data ++ rest) = true := by
    simp [List.isPrefixOf]
  rw [backslashesNamed, hp]
  simp [backslashesNamed]

theorem backslashesNamed_flatMap (l : List Char) :
    backslashesNamed
      (l.flatMap (fun c => if c = '\\' then "\\textbackslash ".data else [c])) = true := by
  induction l with
  | nil => rfl
  | cons c cs ih =>
    by_cases hc : c = '\\'
    · simp only [List.flatMap_cons, hc, if_true]
      rw [backslashesNamed_append]
      exact ih
    · have hb : (c != '\\') = true := by simpa using hc
      simp only [List.flatMap_cons, hc, if_false, List.singleton_append, backslashesNamed, hb,
        Bool.true_or, Bool.true_and]
      exact ih

theorem backslashesNamed_split :
    ∀ (pre l post : List Char), backslashesNamed l = true → l = pre ++ '\\' :: post →
      "textbackslash ".data <+: post := by
  intro pre
  induction pre with
  | nil =>
    intro l post h e
    subst e
    simp only [List.nil_append, backslashesNamed, bne_self_eq_false, Bool.false_or,
      Bool.and_eq_true] at h
    exact List.isPrefixOf_iff_prefix.mp h.1
  | cons x xs ih =>
    intro l post h e
    subst e
    simp only [List.cons_append, backslashesNamed, Bool.and_eq_true] at h
    exact ih _ post h.2 rfl


theorem TexEscape_of_safe (s : String) (h : ∀ c ∈ specialChars, c ∉ s.data) :
    TexEscape s = s :=
  applyRules_of_safe texRules s fun r hr =>
    (texRules_head r hr).elim fun a ha => ⟨a, ha.2, h a ha.1⟩

/-! ## The claims -/

/-- Claim C9.  `TexEscape` is the identity on a text that holds none of the
ten characters `& % $ # _ \x7b \x7d ~ ^` and backslash, and it maps the empty
text to the empty text. -/
theorem TexEscape_safe_identity (s : String) (h : ∀ c ∈ specialChars, c ∉ s.data) :
    TexEscape s = s ∧ TexEscape "" = "" := by
  exact ⟨TexEscape_of_safe s h, by decide⟩

theorem TexEscape_safe_identity_witness :
    (∀ c ∈ specialChars, c ∉ "Annual report 2019".data) ∧
      (TexEscape "Annual report 2019" = "Annual report 2019" ∧ TexEscape "" = "") :=
  ⟨by decide, TexEscape_safe_identity "Annual report 2019" (by decide)⟩

/-- Claim C10.  In the output of `TexEscape` every backslash is immediately
followed by the text `textbackslash ` (with its trailing space). -/
theorem TexEscape_backslash_followed (s : String) (pre post : List Char)
    (h : (TexEscape s).data = pre ++ '\\' :: post) : "textbackslash ".data <+: post := by
  refine backslashesNamed_split pre _ post ?_ h
  rw [TexEscape_last]
  exact backslashesNamed_flatMap _

theorem TexEscape_backslash_followed_witness :
    (TexEscape "a&b").data = ['a'] ++ '\\' :: "textbackslash &b".data ∧
      "textbackslash ".data <+: "textbackslash &b".data :=
  ⟨by decide, TexEscape_backslash_followed "a&b" ['a'] "textbackslash &b".data (by decide)⟩

/-- Claim C8, as amended.  Escaping twice gives the same text as escaping
once exactly when the input holds none of the ten characters that `TexEscape`
looks for. -/
theorem TexEscape_idempotent_iff (s : String) :
    TexEscape (TexEscape s) = TexEscape s ↔ ∀ c ∈ specialChars, c ∉ s.data := by
  constructor
  · intro h c hc hs
    have h1 := backslash_mem_TexEscape s c hc hs
    have h2 := length_lt_TexEscape (TexEscape s) h1
    rw [h] at h2
    exact Nat.lt_irrefl _ h2
  · intro h
    rw [TexEscape_of_safe s h, TexEscape_of_safe s h]

/-- Claim C8, as stated, fails: `&` holds no backslash, tilde or circumflex,
and escaping it twice differs from escaping it once. -/
theorem TexEscape_not_idempotent :
    '\\' ∉ "&".data ∧ '~' ∉ "&".data ∧ '^' ∉ "&".data ∧
      TexEscape "&" = "\\textbackslash &" ∧
      TexEscape (TexEscape "&") = "\\textbackslash textbackslash \\textbackslash &" ∧
      TexEscape (TexEscape "&") ≠ TexEscape "&" := by
  decide

/-- Claim C1, on the code: for the input `&` the output is
`\textbackslash &`, whose `&` follows a space, so it is an unescaped
occurrence. -/
theorem TexEscape_ampersand_unescaped :
    TexEscape "&" = "\\textbackslash &" ∧ hasUnescaped none (TexEscape "&").data = true := by
  decide

/-- Claim C2, on the code: `A & B` holds no backslash, tilde or circumflex,
yet the backslash put before `&` is replaced again by the last rule, so the
result is not the text with a single backslash before `&`, it does not hold
`A \& B`, and a text prompt answered with `A & B` returns it. -/
theorem TexEscape_reescapes_inserted_backslash :
    ('\\' ∉ "A & B".data ∧ '~' ∉ "A & B".data ∧ '^' ∉ "A & B".data) ∧
      backslashEscaped "A & B" = "A \\& B" ∧
      TexEscape "A & B" = "A \\textbackslash & B" ∧
      TexEscape "A & B" ≠ backslashEscaped "A & B" ∧
      ¬ "A \\& B".data <:+: (TexEscape "A & B").data ∧
      (PromptString firstRunStore "title" "Title?" (scripted false "A & B")).toOption.map
        Prod.fst = some "A \\textbackslash & B" := by
  decide

/-- Claim C5, on the code: when executing the template fails, the error is
logged and the run goes on; with no output name the buffer filled so far is
written to the standard output, with the output name `report` it is written
to the `.tex` file, the values file is written and the renderer runs. -/
theorem main_writes_after_execute_error :
    main (failingRun "") (.create "letter.tex") =
        [Effect.log "can't evaluate field Missing", Effect.stdout "Hello "] ∧
      main (failingRun "report") (.create "letter.tex") =
        [Effect.log "can't evaluate field Missing",
         Effect.openFile "/work/report.tex",
         Effect.copyToFile "/work/report.tex" "Hello ",
         Effect.writeFile "/work/report.json" "_template=letter.tex;",
         Effect.run "/work/." ["pdflatex", "-halt-on-error", "/work/report.tex"]
           "TEXINPUTS=$TEXMFDOTDIR:$TEXMF/tex/\x7b$progname,generic,latex,\x7d//:/work",
         Effect.run "/work/." ["pdflatex", "-halt-on-error", "/work/report.tex"]
           "TEXINPUTS=$TEXMFDOTDIR:$TEXMF/tex/\x7b$progname,generic,latex,\x7d//:/work"] := by
  decide

/-- Claim C7.  The default that `PromptBool` presents is affirmative when the
key holds `true`, negative when the key is unset or holds a text that is not a
boolean, and the only error of `PromptBool` is the error of the interaction. -/
theorem PromptBool_default (w : wizard) (k q : String) :
    (mapFind w.Values k = some "true" → (PromptBool.shown w k q).Default = true) ∧
      (mapFind w.Values k = none → (PromptBool.shown w k q).Default = false) ∧
      (∀ v, mapFind w.Values k = some v → (ParseBool v).2 ≠ none →
        (PromptBool.shown w k q).Default = false) ∧
      (∀ t err, PromptBool w k q t = .error err →
        t.askConfirm (PromptBool.shown w k q) = .error err) ∧
      (∀ t b, t.askConfirm (PromptBool.shown w k q) = .ok b →
        ∃ w', PromptBool w k q t = .ok (b, w')) := by
  refine ⟨?_, ?_, ?_, ?_, ?_⟩
  · intro h
    simp only [PromptBool.shown, mapGet, h]
    decide
  · intro h
    simp only [PromptBool.shown, mapGet, h]
    decide
  · intro v h hv
    simp only [PromptBool.shown, mapGet, h]
    exact ParseBool_error_false v hv
  · intro t err h
    unfold PromptBool at h
    split at h
    · rename_i e he
      rw [he]
      simpa using h
    · simp at h
  · intro t b h
    exact ⟨_, PromptBool_ok w k q t b h⟩

theorem PromptBool_default_witness :
    (PromptBool.shown ⟨"", [("flag", "true")]⟩ "flag" "Flag?").Default = true ∧
      (PromptBool.shown ⟨"", []⟩ "flag" "Flag?").Default = false ∧
      (PromptBool.shown ⟨"", [("flag", "maybe")]⟩ "flag" "Flag?").Default = false ∧
      ∃ w', PromptBool ⟨"", [("flag", "maybe")]⟩ "flag" "Flag?" (scripted true "") =
        .ok (true, w') :=
  ⟨(PromptBool_default ⟨"", [("flag", "true")]⟩ "flag" "Flag?").1 (by decide),
    (PromptBool_default ⟨"", []⟩ "flag" "Flag?").2.1 (by decide),
    (PromptBool_default ⟨"", [("flag", "maybe")]⟩ "flag" "Flag?").2.2.1 "maybe"
      (by decide) (by decide),
    (PromptBool_default ⟨"", [("flag", "maybe")]⟩ "flag" "Flag?").2.2.2.2
      (scripted true "") true rfl⟩

/-- Claim C3.  When the user replies `a`, `PromptString` and `PromptSelect`
return `TexEscape a` and leave the raw `a` stored under the key; the default
they present is the value stored under the key, or the empty text when the key
is absent. -/
theorem prompt_text_raw_stored_escaped_returned (w : wizard) (k q : String)
    (options : List String) (t : Terminal) (a b : String)
    (hi : t.askInput (PromptString.shown w k q) = .ok a)
    (hs : t.askSelect (PromptSelect.shown w k q options) = .ok b) :
    (∃ w', PromptString w k q t = .ok (TexEscape a, w') ∧ mapFind w'.Values k = some a) ∧
      (∃ w', PromptSelect w k q options t = .ok (TexEscape b, w') ∧
        mapFind w'.Values k = some b) ∧
      (PromptString.shown w k q).Default = (mapFind w.Values k).getD "" ∧
      (PromptSelect.shown w k q options).Default = (mapFind w.Values k).getD "" := by
  refine ⟨⟨_, PromptString_ok w k q t a hi, mapFind_mapSet_self _ _ _⟩,
    ⟨_, PromptSelect_ok w k q options t b hs, mapFind_mapSet_self _ _ _⟩, ?_, ?_⟩
  · simp only [PromptString.shown, mapGet]
    cases mapFind w.Values k <;> rfl
  · simp only [PromptSelect.shown, mapGet]
    cases mapFind w.Values k <;> rfl

theorem prompt_text_raw_stored_escaped_returned_witness :
    (∃ w', PromptString firstRunStore "title" "Title?" (scripted false "C_D") =
        .ok (TexEscape "C_D", w') ∧ mapFind w'.Values "title" = some "C_D") ∧
      (∃ w', PromptSelect firstRunStore "size" "Size?" ["a4", "C_D"] (scripted false "C_D") =
        .ok (TexEscape "C_D", w') ∧ mapFind w'.Values "size" = some "C_D") ∧
      (PromptString.shown firstRunStore "title" "Title?").Default = "A & B" ∧
      (PromptSelect.shown firstRunStore "size" "Size?" ["a4", "C_D"]).Default = "" :=
  ⟨(prompt_text_raw_stored_escaped_returned firstRunStore "title" "Title?" []
      (scripted false "C_D") "C_D" "C_D" rfl rfl).1,
    (prompt_text_raw_stored_escaped_returned firstRunStore "size" "Size?" ["a4", "C_D"]
      (scripted false "C_D") "C_D" "C_D" rfl rfl).2.1,
    (prompt_text_raw_stored_escaped_returned firstRunStore "title" "Title?" []
      (scripted false "C_D") "C_D" "C_D" rfl rfl).2.2.1,
    (prompt_text_raw_stored_escaped_returned firstRunStore "size" "Size?" ["a4", "C_D"]
      (scripted false "C_D") "C_D" "C_D" rfl rfl).2.2.2⟩

/-- Claim C6.  A prompt changes only its own key: after a reply, the key holds
the canonical text of the reply (`true` or `false` for a boolean, the raw text
otherwise), every other key holds what it held before, and the output filename
is unchanged. -/
theorem prompt_changes_only_its_key (w : wizard) (k q : String) (options : List String)
    (t : Terminal) (yes : Bool) (a b : String)
    (hc : t.askConfirm (PromptBool.shown w k q) = .ok yes)
    (hi : t.askInput (PromptString.shown w k q) = .ok a)
    (hs : t.askSelect (PromptSelect.shown w k q options) = .ok b) :
    (∃ r w', PromptBool w k q t = .ok (r, w') ∧
        mapFind w'.Values k = some (if yes then "true" else "false") ∧
        (∀ j, j ≠ k → mapFind w'.Values j = mapFind w.Values j) ∧
        w'.OutputFilename = w.OutputFilename) ∧
      (∃ r w', PromptString w k q t = .ok (r, w') ∧
        mapFind w'.Values k = some a ∧
        (∀ j, j ≠ k → mapFind w'.Values j = mapFind w.Values j) ∧
        w'.OutputFilename = w.OutputFilename) ∧
      (∃ r w', PromptSelect w k q options t = .ok (r, w') ∧
        mapFind w'.Values k = some b ∧
        (∀ j, j ≠ k → mapFind w'.Values j = mapFind w.Values j) ∧
        w'.OutputFilename = w.OutputFilename) := by
  refine ⟨⟨_, _, PromptBool_ok w k q t yes hc, ?_, ?_, rfl⟩,
    ⟨_, _, PromptString_ok w k q t a hi, ?_, ?_, rfl⟩,
    ⟨_, _, PromptSelect_ok w k q options t b hs, ?_, ?_, rfl⟩⟩
  · show mapFind (mapSet w.Values k (FormatBool yes)) k = _
    rw [mapFind_mapSet_self]
    cases yes <;> rfl
  · exact fun j hj => mapFind_mapSet_other _ _ _ j hj
  · exact mapFind_mapSet_self _ _ _
  · exact fun j hj => mapFind_mapSet_other _ _ _ j hj
  · exact mapFind_mapSet_self _ _ _
  · exact fun j hj => mapFind_mapSet_other _ _ _ j hj

theorem prompt_changes_only_its_key_witness :
    ∃ r w', PromptBool firstRunStore "draft" "Draft?" (scripted true "x") = .ok (r, w') ∧
      mapFind w'.Values "draft" = some "true" ∧
      mapFind w'.Values "title" = some "A & B" ∧
      w'.OutputFilename = firstRunStore.OutputFilename := by
  obtain ⟨r, w', h1, h2, h3, h4⟩ :=
    (prompt_changes_only_its_key firstRunStore "draft" "Draft?" [] (scripted true "x")
      true "x" "x" rfl rfl rfl).1
  exact ⟨r, w', h1, h2, (h3 "title" (by decide)).trans (by decide), h4⟩

end Texlate
